import Mathlib

/-!
Verification development for the Meet → Clockify reconciliation core.

Shallow embedding of the repository's core logic:
* `src/services/google-meet-service.ts` — session aggregation (`getConferenceRecords`,
  lines 158–186, over the sessions produced by `getUserParticipantSessions`);
* `src/services/clockify-service.ts` — `createTimeEntry` (project attachment) and
  `isMatchSynced`;
* `src/workers/sync-worker.ts` — the reconciliation pass `processSyncJob`;
* `src/scripts/index.ts` — the standalone CLI pass `syncMeetToClockify`;
* `src/utils/common.ts` — `formatDuration`.

Modelling conventions:
* JavaScript `Date` instants are modelled as epoch milliseconds (`Int`) at the
  aggregation layer, where arithmetic on them happens; at the driver layer the code
  only ever uses the renderings `toISOString()` / `toLocaleTimeString()`, so a
  `MeetingSession`'s `startTime`/`endTime` fields are carried as those rendered strings.
* JavaScript `String.prototype.includes` is modelled as `jsIncludes` over the
  character list of a Lean `String`.
* `async`/`throw` is modelled with `Except String`; the remote collaborators
  (fetches, entry creation) are passed in as values / oracles, and the pass records
  the remote calls it performs in an `ApiCall` trace.
* Rate-limit sleeps (`sleep`) are timing-only and have no effect on the computed
  state, so they are not modelled.
-/

/-- One continuous join-to-leave interval of the tracked user, as pushed by
`getUserParticipantSessions` (google-meet-service.ts:253–263): `name` and `startTime`
are present, `endTime` is `session.endTime || null`. Instants in epoch ms. -/
structure ParticipantSession where
  name : String
  startTime : Int
  endTime : Option Int
deriving DecidableEq

/-- One aggregated meeting, the list element type produced by `getConferenceRecords`
(`MeetingSession` in `src/types/google-meet.ts`). The driver only consumes
`startTime`/`endTime` through `toISOString()` and `toLocaleTimeString()`, so the
embedding carries those renderings directly. -/
structure MeetingSession where
  meetingId : String
  meetingCode : String
  meetingUri : String
  startTimeIso : String
  endTimeIso : String
  startTimeLocale : String
  duration : Int
deriving DecidableEq

/-- A Clockify time entry as read back from the API (`ClockifyTimeEntry` in
`src/types/clockify.ts`); the core only reads `id` and `description`. -/
structure ClockifyTimeEntry where
  id : String
  description : String
deriving DecidableEq

/-- `CreateTimeEntryRequest` from `src/types/clockify.ts`. -/
structure CreateTimeEntryRequest where
  start : String
  «end» : String
  billable : Bool
  description : String
  projectId : Option String := none
deriving DecidableEq

/-- `startsWithAux p l` : does character list `l` start with `p`?
(Helper for the model of JavaScript `String.prototype.includes`.) -/
def startsWithAux : List Char → List Char → Bool
  | [], _ => true
  | _ :: _, [] => false
  | p :: ps, c :: cs => p == c && startsWithAux ps cs

/-- `includesAux p l` : does `p` occur as a contiguous run inside `l`? -/
def includesAux (p : List Char) : List Char → Bool
  | [] => p.isEmpty
  | c :: cs => startsWithAux p (c :: cs) || includesAux p cs

/-- Model of JavaScript `s.includes(pat)`: literal-substring containment. -/
def jsIncludes (s pat : String) : Bool :=
  includesAux pat.data s.data

/-- `formatDuration` (src/utils/common.ts:11–15): seconds to whole hours and minutes.
JS `Math.floor(x / n)` is `Int.fdiv`, JS `%` is `Int.tmod`. -/
structure DurationParts where
  hours : Int
  minutes : Int
deriving DecidableEq

/-- `formatDuration(seconds)` from src/utils/common.ts. -/
def formatDuration (seconds : Int) : DurationParts :=
  { hours := Int.fdiv seconds 3600
    minutes := Int.fdiv (Int.tmod seconds 3600) 60 }

/-- The fingerprint tag built by the worker pass
(sync-worker.ts:78, `` `[Meet:${meeting.meetingId}]` ``). -/
def meetingIdentifier (m : MeetingSession) : String :=
  "[Meet:" ++ m.meetingId ++ "]"

/-- The fingerprint tag built by the standalone CLI script
(scripts/index.ts:79, `` `[Meet:${meeting.meetingId}:${meeting.startTime.toISOString()}]` ``). -/
def scriptMeetingIdentifier (m : MeetingSession) : String :=
  "[Meet:" ++ m.meetingId ++ ":" ++ m.startTimeIso ++ "]"

/-- `meetingDisplay` (sync-worker.ts:92–94); JS truthiness of `meeting.meetingCode`
is emptiness of the string. -/
def meetingDisplay (m : MeetingSession) : String :=
  if m.meetingCode ≠ "" then "Meet: " ++ m.meetingCode
  else "Google Meet (" ++ m.startTimeLocale ++ ")"

/-- The created entry's description (sync-worker.ts:95). -/
def syncDescription (m : MeetingSession) : String :=
  "🎥 " ++ meetingDisplay m ++ " | " ++ toString (formatDuration m.duration).hours
    ++ "h " ++ toString (formatDuration m.duration).minutes ++ "m " ++ meetingIdentifier m

/-- The duplicate check of the worker pass (sync-worker.ts:79–81):
`existingEntries.some((entry) => entry.description.includes(tag))`.
This is the `isAlreadySynced` contract of the spec. -/
def isAlreadySynced (tag : String) (existingEntries : List ClockifyTimeEntry) : Bool :=
  existingEntries.any fun entry => jsIncludes entry.description tag

/-- `isMatchSynced` (clockify-service.ts:193–198), kept for reference: the same
containment test against a `[Match:...]` token. -/
def isMatchSynced (matchId : String) (existingEntries : List ClockifyTimeEntry) : Bool :=
  existingEntries.any fun entry => jsIncludes entry.description ("[Match:" ++ matchId ++ "]")

/-- The request actually submitted by `createTimeEntry` (clockify-service.ts:167–183):
when the service resolved a project id during initialization
(`state.leagueProjectId`, set by `getOrCreateLeagueProject`), the candidate's
`projectId` is overwritten in place with it before the POST. -/
def createTimeEntrySubmitted (leagueProjectId : Option String)
    (entry : CreateTimeEntryRequest) : CreateTimeEntryRequest :=
  match leagueProjectId with
  | some pid => { entry with projectId := some pid }
  | none => entry

/-- A session interval with both endpoints, as built at google-meet-service.ts:160–165
(`{ start: new Date(s.startTime), end: new Date(s.endTime) }`). -/
structure SessionTimes where
  start : Int
  «end» : Int
deriving DecidableEq

/-- google-meet-service.ts:160–165: keep only sessions with both a start and a
non-null end (`filter((s) => s.startTime && s.endTime)`; a session's `startTime` is
always a non-empty string by construction in `getUserParticipantSessions`, and a
missing end was normalized to `null` there, so the JS truthiness test is exactly
"end present"), then map to start/end instants. -/
def sessionTimesOf (userSessions : List ParticipantSession) : List SessionTimes :=
  userSessions.filterMap fun s =>
    s.endTime.map fun e => { start := s.startTime, «end» := e }

/-- The aggregated attendance window pushed at google-meet-service.ts:168–174. -/
structure MeetingAggregate where
  earliestStart : Int
  latestEnd : Int
  totalDuration : Int
deriving DecidableEq

/-- The per-conference aggregation of `getConferenceRecords`
(google-meet-service.ts:158–187): if the user attended (`userSessions.length > 0`)
and at least one session has both endpoints, produce
`Math.min` of starts, `Math.max` of ends, and
`Math.floor((latestEnd - earliestStart) / 1000)` seconds; otherwise push nothing. -/
def aggregateUserSessions (userSessions : List ParticipantSession) :
    Option MeetingAggregate :=
  if userSessions.length > 0 then
    match sessionTimesOf userSessions with
    | [] => none
    | t :: ts =>
      let earliestStart := ts.foldl (fun acc x => min acc x.start) t.start
      let latestEnd := ts.foldl (fun acc x => max acc x.«end») t.«end»
      some { earliestStart := earliestStart, latestEnd := latestEnd,
             totalDuration := Int.fdiv (latestEnd - earliestStart) 1000 }
  else none

/-- The remote calls a pass performs, in order. -/
inductive ApiCall where
  | fetchMeetings
  | fetchExisting
  | createEntry (req : CreateTimeEntryRequest)
deriving DecidableEq

/-- The `stats` object of the worker's result (sync-worker.ts:49–54 and 128–134);
the zero result of the early return carries no `total_in_clockify` field. -/
structure SyncStats where
  meetings_found : Nat
  synced : Nat
  skipped : Nat
  failed : Nat
  total_in_clockify : Option Nat := none
deriving DecidableEq

/-- The worker's returned result object (sync-worker.ts:46–55 and 125–136);
the early return carries no `dry_run` field. -/
structure SyncResult where
  status : String
  message : String
  stats : SyncStats
  dry_run : Option Bool := none
deriving DecidableEq

/-- The mutable loop state of sync-worker.ts:72–74, plus the trace of
`createTimeEntry` calls issued so far. -/
structure LoopState where
  syncedCount : Nat
  skippedCount : Nat
  failedCount : Nat
  calls : List ApiCall
deriving DecidableEq

/-- The creation payload built at sync-worker.ts:102–107 for one meeting. -/
def syncRequest (meeting : MeetingSession) : CreateTimeEntryRequest :=
  { start := meeting.startTimeIso, «end» := meeting.endTimeIso,
    billable := false, description := syncDescription meeting }

/-- The `for (const meeting of meetings)` loop of sync-worker.ts:76–123.
The recursion processes the list head first, exactly as the source loop does:
the head's counter bump and its `createTimeEntry` call (recorded at the front of
`calls`) happen before the rest of the list is processed. `create` is the
creation collaborator: `Except.error` is a thrown error, caught by the
`try/catch` which bumps `failedCount` and continues. The duplicate check reads
the `existingEntries` snapshot fetched once before the loop. -/
def syncLoop (dryRun : Bool) (existingEntries : List ClockifyTimeEntry)
    (create : CreateTimeEntryRequest → Except String ClockifyTimeEntry) :
    List MeetingSession → LoopState
  | [] => { syncedCount := 0, skippedCount := 0, failedCount := 0, calls := [] }
  | meeting :: rest =>
    let st := syncLoop dryRun existingEntries create rest
    if isAlreadySynced (meetingIdentifier meeting) existingEntries then
      { st with skippedCount := st.skippedCount + 1 }
    else if dryRun then
      { st with syncedCount := st.syncedCount + 1 }
    else
      let req : CreateTimeEntryRequest := syncRequest meeting
      match create req with
      | Except.ok _ =>
        { st with syncedCount := st.syncedCount + 1,
                  calls := ApiCall.createEntry req :: st.calls }
      | Except.error _ =>
        { st with failedCount := st.failedCount + 1,
                  calls := ApiCall.createEntry req :: st.calls }

/-- The early-return result of sync-worker.ts:46–55. -/
def zeroSyncResult : SyncResult :=
  { status := "success", message := "No meetings found",
    stats := { meetings_found := 0, synced := 0, skipped := 0, failed := 0 } }

/-- `processSyncJob` (sync-worker.ts:14–150), with the collaborators passed in:
`fetchMeetings` models `meetService.getConferenceRecords`, `fetchExisting` models
`clockifyService.getTimeEntriesForDateRange`, `create` models
`clockifyService.createTimeEntry`. A fetch error propagates (the `await` throws
out of the function); the pass also returns the ordered trace of remote calls it
performed. -/
def processSyncJob (dryRun : Bool)
    (fetchMeetings : Except String (List MeetingSession))
    (fetchExisting : Except String (List ClockifyTimeEntry))
    (create : CreateTimeEntryRequest → Except String ClockifyTimeEntry) :
    Except String (SyncResult × List ApiCall) :=
  match fetchMeetings with
  | Except.error e => Except.error e
  | Except.ok meetings =>
    if meetings.length = 0 then
      Except.ok (zeroSyncResult, [ApiCall.fetchMeetings])
    else
      match fetchExisting with
      | Except.error e => Except.error e
      | Except.ok existingEntries =>
        let existingMeetEntries :=
          existingEntries.filter fun entry => jsIncludes entry.description "[Meet:"
        let st := syncLoop dryRun existingEntries create meetings
        Except.ok
          ({ status := "success", message := "Sync completed",
             stats := { meetings_found := meetings.length, synced := st.syncedCount,
                        skipped := st.skippedCount, failed := st.failedCount,
                        total_in_clockify :=
                          some (existingMeetEntries.length + st.syncedCount) },
             dry_run := some dryRun },
           ApiCall.fetchMeetings :: ApiCall.fetchExisting :: st.calls)

/-- The creation requests a pass submitted, read off its call trace. -/
def createdRequests (calls : List ApiCall) : List CreateTimeEntryRequest :=
  calls.filterMap fun c =>
    match c with
    | ApiCall.createEntry req => some req
    | _ => none

/-- The target-system entries resulting from a pass's successful creations: the
sink stores each submitted description verbatim. -/
def entriesOfCreates (calls : List ApiCall) : List ClockifyTimeEntry :=
  (createdRequests calls).map fun req => { id := "", description := req.description }

/-- Concrete fixture: the spec example session 10:00–10:20 (epoch ms). -/
def sessionTenToTwenty : ParticipantSession :=
  { name := "s1", startTime := 36000000, endTime := some 37200000 }

/-- Concrete fixture: the spec example session 10:25–10:40 (epoch ms). -/
def sessionTwentyFiveToForty : ParticipantSession :=
  { name := "s2", startTime := 37500000, endTime := some 38400000 }

/-- Concrete fixture: a session still in progress (null end instant). -/
def sessionStillOpen : ParticipantSession :=
  { name := "s1", startTime := 100, endTime := none }

/-- Concrete fixture: a single meeting record. -/
def meetingAlpha : MeetingSession :=
  { meetingId := "a", meetingCode := "A", meetingUri := "",
    startTimeIso := "S1", endTimeIso := "E1", startTimeLocale := "L1", duration := 3600 }

/-- Concrete fixture: a creation collaborator that always succeeds. -/
def alwaysOkCreate : CreateTimeEntryRequest → Except String ClockifyTimeEntry :=
  fun _ => Except.ok { id := "n", description := "d" }

/-- Concrete fixture: three distinct meeting records. -/
def meetingsABC : List MeetingSession :=
  [{ meetingId := "a", meetingCode := "A", meetingUri := "",
     startTimeIso := "S1", endTimeIso := "E1", startTimeLocale := "L1", duration := 60 },
   { meetingId := "b", meetingCode := "B", meetingUri := "",
     startTimeIso := "S2", endTimeIso := "E2", startTimeLocale := "L2", duration := 60 },
   { meetingId := "c", meetingCode := "C", meetingUri := "",
     startTimeIso := "S3", endTimeIso := "E3", startTimeLocale := "L3", duration := 60 }]

/-- Concrete fixture: a creation collaborator that fails exactly on the request
whose end instant is "E2" (the second meeting of `meetingsABC`). -/
def createFailingOnE2 : CreateTimeEntryRequest → Except String ClockifyTimeEntry :=
  fun req =>
    if req.«end» = "E2" then Except.error "HTTP 429 Too Many Requests"
    else Except.ok { id := "n", description := req.description }

theorem startsWithAux_iff (p l : List Char) : startsWithAux p l = true ↔ p <+: l := by
  induction p generalizing l with
  | nil => simp [startsWithAux]
  | cons a as ih =>
    cases l with
    | nil =>
      simp only [startsWithAux, List.prefix_nil]
      simp
    | cons b bs =>
      simp [startsWithAux, ih, List.cons_prefix_cons]

theorem includesAux_iff (p l : List Char) : includesAux p l = true ↔ p <:+: l := by
  induction l with
  | nil =>
    simp [includesAux, List.isEmpty_iff]
  | cons c cs ih =>
    simp [includesAux, startsWithAux_iff, ih, List.infix_cons_iff]

/-- `jsIncludes` is exactly substring (contiguous-run) containment. -/
theorem jsIncludes_iff (s pat : String) : jsIncludes s pat = true ↔ pat.data <:+: s.data :=
  includesAux_iff pat.data s.data

theorem isAlreadySynced_iff (tag : String) (existing : List ClockifyTimeEntry) :
    isAlreadySynced tag existing = true ↔
      ∃ e ∈ existing, tag.data <:+: e.description.data := by
  simp [isAlreadySynced, List.any_eq_true, jsIncludes_iff]

theorem tag_infix_syncDescription (m : MeetingSession) :
    jsIncludes (syncDescription m) (meetingIdentifier m) = true := by
  rw [jsIncludes_iff]
  refine ⟨("🎥 " ++ meetingDisplay m ++ " | " ++ toString (formatDuration m.duration).hours
      ++ "h " ++ toString (formatDuration m.duration).minutes ++ "m ").data, [], ?_⟩
  simp [syncDescription, String.data_append]

/-- C3: the worker's duplicate detection is literal-substring containment —
`isAlreadySynced tag existing` is true iff some existing entry's description
contains `tag` as a contiguous substring; the closing bracket makes the match
precise (`[Meet:abc1234]` in a description does not match the tag
`[Meet:abc123]`); and the token searched for is the very token the created
description embeds. -/
theorem c3_duplicate_detection_substring :
    (∀ (tag : String) (existing : List ClockifyTimeEntry),
        isAlreadySynced tag existing = true ↔
          ∃ e ∈ existing, tag.data <:+: e.description.data)
    ∧ isAlreadySynced "[Meet:abc123]"
        [{ id := "e1", description := "Standup [Meet:abc123] done" }] = true
    ∧ isAlreadySynced "[Meet:abc123]"
        [{ id := "e1", description := "Standup [Meet:abc1234] done" }] = false
    ∧ (∀ m : MeetingSession, jsIncludes (syncDescription m) (meetingIdentifier m) = true) :=
  ⟨isAlreadySynced_iff, by decide, by decide, tag_infix_syncDescription⟩

/-- C2 counterexample: the repository has a second tag construction, in the
standalone CLI pass (scripts/index.ts:79), and it is time-qualified: for a
concrete meeting it differs from `"[Meet:" ++ meetingId ++ "]"`, and two
records of the same meeting whose aggregated start differs get different tags
there. -/
theorem c2_counterexample :
    scriptMeetingIdentifier
        { meetingId := "abc123", meetingCode := "", meetingUri := "",
          startTimeIso := "2024-01-01T10:00:00.000Z",
          endTimeIso := "2024-01-01T11:00:00.000Z",
          startTimeLocale := "10:00:00 AM", duration := 3600 }
      ≠ "[Meet:" ++ "abc123" ++ "]"
    ∧ scriptMeetingIdentifier
        { meetingId := "abc123", meetingCode := "", meetingUri := "",
          startTimeIso := "2024-01-01T10:00:00.000Z",
          endTimeIso := "2024-01-01T11:00:00.000Z",
          startTimeLocale := "10:00:00 AM", duration := 3600 }
      ≠ scriptMeetingIdentifier
        { meetingId := "abc123", meetingCode := "", meetingUri := "",
          startTimeIso := "2024-01-01T10:05:00.000Z",
          endTimeIso := "2024-01-01T11:00:00.000Z",
          startTimeLocale := "10:05:00 AM", duration := 3300 } := by
  constructor
  · decide
  · decide

/-- C2 (amended): in the worker pass the fingerprint tag is
`"[Meet:" ++ meetingId ++ "]"` — derived from the meeting identifier only, hence
identical across resyncs whenever the identifier is unchanged, regardless of the
aggregated instants — while the CLI script instead embeds the time-qualified
`"[Meet:" ++ meetingId ++ ":" ++ startTime ISO ++ "]"`. -/
theorem c2_worker_tag_identifier_only (m m' : MeetingSession) :
    meetingIdentifier m = "[Meet:" ++ m.meetingId ++ "]"
    ∧ scriptMeetingIdentifier m = "[Meet:" ++ m.meetingId ++ ":" ++ m.startTimeIso ++ "]"
    ∧ (m.meetingId = m'.meetingId → meetingIdentifier m = meetingIdentifier m') := by
  refine ⟨rfl, rfl, fun h => ?_⟩
  simp [meetingIdentifier, h]

theorem c2_worker_tag_identifier_only_witness :
    meetingIdentifier
        { meetingId := "abc123", meetingCode := "c", meetingUri := "",
          startTimeIso := "2024-01-01T10:00:00.000Z",
          endTimeIso := "2024-01-01T11:00:00.000Z",
          startTimeLocale := "10:00:00 AM", duration := 3600 }
      = meetingIdentifier
        { meetingId := "abc123", meetingCode := "", meetingUri := "",
          startTimeIso := "2024-01-02T09:00:00.000Z",
          endTimeIso := "2024-01-02T09:30:00.000Z",
          startTimeLocale := "9:00:00 AM", duration := 1800 } :=
  (c2_worker_tag_identifier_only
      { meetingId := "abc123", meetingCode := "c", meetingUri := "",
        startTimeIso := "2024-01-01T10:00:00.000Z",
        endTimeIso := "2024-01-01T11:00:00.000Z",
        startTimeLocale := "10:00:00 AM", duration := 3600 }
      { meetingId := "abc123", meetingCode := "", meetingUri := "",
        startTimeIso := "2024-01-02T09:00:00.000Z",
        endTimeIso := "2024-01-02T09:30:00.000Z",
        startTimeLocale := "9:00:00 AM", duration := 1800 }).2.2 rfl

/-- C10: `createTimeEntry` overwrites the candidate's `projectId` with the
project id resolved at initialization whenever one was resolved, leaving every
other field (and the caller-supplied `projectId` only in the unresolved case)
as given: the submitted entry is attached to the configured project and the
caller-supplied `projectId` is ignored. -/
theorem c10_createTimeEntry_project_attachment
    (pid : String) (entry : CreateTimeEntryRequest) :
    (createTimeEntrySubmitted (some pid) entry).projectId = some pid
    ∧ createTimeEntrySubmitted (some pid) entry = { entry with projectId := some pid }
    ∧ createTimeEntrySubmitted none entry = entry :=
  ⟨rfl, rfl, rfl⟩

theorem foldl_min_mem (l : List Int) : ∀ a : Int, l.foldl min a ∈ a :: l := by
  induction l with
  | nil => intro a; simp
  | cons b bs ih =>
    intro a
    have h := ih (min a b)
    rcases List.mem_cons.mp h with h1 | h1
    · rcases min_choice a b with hc | hc <;> rw [List.foldl_cons, h1, hc] <;> simp
    · simp [List.foldl_cons, List.mem_cons.mpr (Or.inr (List.mem_cons.mpr (Or.inr h1)))]

theorem foldl_min_le (l : List Int) : ∀ a : Int, ∀ x ∈ a :: l, l.foldl min a ≤ x := by
  induction l with
  | nil => intro a x hx; simp at hx; simp [hx]
  | cons b bs ih =>
    intro a x hx
    rcases List.mem_cons.mp hx with h1 | h1
    · rw [h1]
      exact le_trans (ih (min a b) (min a b) (List.mem_cons_self _ _)) (min_le_left a b)
    rcases List.mem_cons.mp h1 with h2 | h2
    · rw [h2]
      exact le_trans (ih (min a b) (min a b) (List.mem_cons_self _ _)) (min_le_right a b)
    · exact ih (min a b) x (List.mem_cons.mpr (Or.inr h2))

theorem foldl_max_mem (l : List Int) : ∀ a : Int, l.foldl max a ∈ a :: l := by
  induction l with
  | nil => intro a; simp
  | cons b bs ih =>
    intro a
    have h := ih (max a b)
    rcases List.mem_cons.mp h with h1 | h1
    · rcases max_choice a b with hc | hc <;> rw [List.foldl_cons, h1, hc] <;> simp
    · simp [List.foldl_cons, List.mem_cons.mpr (Or.inr (List.mem_cons.mpr (Or.inr h1)))]

theorem foldl_max_ge (l : List Int) : ∀ a : Int, ∀ x ∈ a :: l, x ≤ l.foldl max a := by
  induction l with
  | nil => intro a x hx; simp at hx; simp [hx]
  | cons b bs ih =>
    intro a x hx
    rcases List.mem_cons.mp hx with h1 | h1
    · rw [h1]
      exact le_trans (le_max_left a b) (ih (max a b) (max a b) (List.mem_cons_self _ _))
    rcases List.mem_cons.mp h1 with h2 | h2
    · rw [h2]
      exact le_trans (le_max_right a b) (ih (max a b) (max a b) (List.mem_cons_self _ _))
    · exact ih (max a b) x (List.mem_cons.mpr (Or.inr h2))

/-- C4: when the filtered session set is non-empty, aggregation produces a record
whose start is the minimum of the filtered session starts, whose end is the
maximum of the filtered session ends, whose duration is
`floor((end − start) / 1000)` seconds, and — as every session is a genuine
interval (its start no later than its end) — that duration is non-negative. -/
theorem c4_aggregation_postcondition (userSessions : List ParticipantSession)
    (hne : sessionTimesOf userSessions ≠ []) :
    ∃ r, aggregateUserSessions userSessions = some r
      ∧ r.earliestStart ∈ (sessionTimesOf userSessions).map SessionTimes.start
      ∧ (∀ x ∈ (sessionTimesOf userSessions).map SessionTimes.start, r.earliestStart ≤ x)
      ∧ r.latestEnd ∈ (sessionTimesOf userSessions).map SessionTimes.«end»
      ∧ (∀ x ∈ (sessionTimesOf userSessions).map SessionTimes.«end», x ≤ r.latestEnd)
      ∧ r.totalDuration = Int.fdiv (r.latestEnd - r.earliestStart) 1000
      ∧ ((∀ s ∈ sessionTimesOf userSessions, s.start ≤ s.«end») → 0 ≤ r.totalDuration) := by
  have huser : userSessions.length > 0 := by
    cases userSessions with
    | nil => simp [sessionTimesOf] at hne
    | cons u us => simp
  rcases hst : sessionTimesOf userSessions with _ | ⟨t, ts⟩
  · exact absurd hst hne
  have hminmem : ts.foldl (fun acc x => min acc x.start) t.start ∈
      (t :: ts).map SessionTimes.start := by
    have := foldl_min_mem (ts.map SessionTimes.start) t.start
    rw [List.foldl_map] at this
    simpa using this
  have hmaxmem : ts.foldl (fun acc x => max acc x.«end») t.«end» ∈
      (t :: ts).map SessionTimes.«end» := by
    have := foldl_max_mem (ts.map SessionTimes.«end») t.«end»
    rw [List.foldl_map] at this
    simpa using this
  refine ⟨{ earliestStart := ts.foldl (fun acc x => min acc x.start) t.start,
            latestEnd := ts.foldl (fun acc x => max acc x.«end») t.«end»,
            totalDuration := Int.fdiv
              (ts.foldl (fun acc x => max acc x.«end») t.«end»
                - ts.foldl (fun acc x => min acc x.start) t.start) 1000 },
          ?_, hminmem, ?_, hmaxmem, ?_, rfl, ?_⟩
  · unfold aggregateUserSessions
    rw [if_pos huser, hst]
  · intro x hx
    have hx' : x ∈ t.start :: ts.map SessionTimes.start := by simpa using hx
    have := foldl_min_le (ts.map SessionTimes.start) t.start x hx'
    rw [List.foldl_map] at this
    exact this
  · intro x hx
    have hx' : x ∈ t.«end» :: ts.map SessionTimes.«end» := by simpa using hx
    have := foldl_max_ge (ts.map SessionTimes.«end») t.«end» x hx'
    rw [List.foldl_map] at this
    exact this
  · intro hint
    apply Int.fdiv_nonneg _ (by norm_num)
    rcases List.mem_map.mp hminmem with ⟨s, hs, hseq⟩
    have h1 : ts.foldl (fun acc x => min acc x.start) t.start ≤ s.start := le_of_eq hseq.symm
    have h2 : s.start ≤ s.«end» := hint s (hst ▸ hs)
    have h3 : s.«end» ≤ ts.foldl (fun acc x => max acc x.«end») t.«end» := by
      have hx' : s.«end» ∈ t.«end» :: ts.map SessionTimes.«end» := by
        rw [← List.map_cons]
        exact List.mem_map_of_mem SessionTimes.«end» hs
      have := foldl_max_ge (ts.map SessionTimes.«end») t.«end» s.«end» hx'
      rw [List.foldl_map] at this
      exact this
    omega

/-- C5: when the filtered session set is empty — in particular when the only
session has a null end instant — aggregation yields `none` and no meeting
record is produced for that conference in this pass. -/
theorem c5_empty_aggregation_drop (userSessions : List ParticipantSession)
    (h : sessionTimesOf userSessions = []) :
    aggregateUserSessions userSessions = none := by
  unfold aggregateUserSessions
  rw [h]
  split <;> rfl

theorem isAlreadySynced_append (tag : String) (l1 l2 : List ClockifyTimeEntry) :
    isAlreadySynced tag (l1 ++ l2) = (isAlreadySynced tag l1 || isAlreadySynced tag l2) := by
  simp [isAlreadySynced]

theorem isAlreadySynced_mono {tag : String} {l l' : List ClockifyTimeEntry}
    (hsub : l ⊆ l') (h : isAlreadySynced tag l = true) : isAlreadySynced tag l' = true := by
  rw [isAlreadySynced_iff] at h ⊢
  obtain ⟨e, he, hinf⟩ := h
  exact ⟨e, hsub he, hinf⟩

theorem isAlreadySynced_of_mem {tag : String} {e : ClockifyTimeEntry}
    {l : List ClockifyTimeEntry} (he : e ∈ l) (h : jsIncludes e.description tag = true) :
    isAlreadySynced tag l = true := by
  simp only [isAlreadySynced, List.any_eq_true]
  exact ⟨e, he, h⟩

theorem syncLoop_counters (dryRun : Bool) (existing : List ClockifyTimeEntry)
    (create : CreateTimeEntryRequest → Except String ClockifyTimeEntry)
    (meetings : List MeetingSession) :
    (syncLoop dryRun existing create meetings).syncedCount
      + (syncLoop dryRun existing create meetings).skippedCount
      + (syncLoop dryRun existing create meetings).failedCount = meetings.length := by
  induction meetings with
  | nil => rfl
  | cons m rest ih =>
    simp only [syncLoop, List.length_cons]
    split
    · simp only []
      omega
    · split
      · simp only []
        omega
      · split <;> simp only [] <;> omega

theorem syncLoop_all_skipped (dryRun : Bool) (existing : List ClockifyTimeEntry)
    (create : CreateTimeEntryRequest → Except String ClockifyTimeEntry)
    (meetings : List MeetingSession)
    (hall : ∀ m ∈ meetings, isAlreadySynced (meetingIdentifier m) existing = true) :
    syncLoop dryRun existing create meetings =
      { syncedCount := 0, skippedCount := meetings.length, failedCount := 0, calls := [] } := by
  induction meetings with
  | nil => rfl
  | cons m rest ih =>
    have h0 := hall m (List.mem_cons_self _ _)
    have hrest := ih (fun m' hm' => hall m' (List.mem_cons.mpr (Or.inr hm')))
    simp [syncLoop, h0, hrest]

theorem syncLoop_dry (existing : List ClockifyTimeEntry)
    (create : CreateTimeEntryRequest → Except String ClockifyTimeEntry)
    (meetings : List MeetingSession) :
    syncLoop true existing create meetings =
      { syncedCount :=
          meetings.countP fun m => !(isAlreadySynced (meetingIdentifier m) existing),
        skippedCount :=
          meetings.countP fun m => isAlreadySynced (meetingIdentifier m) existing,
        failedCount := 0, calls := [] } := by
  induction meetings with
  | nil => rfl
  | cons m rest ih =>
    by_cases hA : isAlreadySynced (meetingIdentifier m) existing = true
    · simp [syncLoop, hA, ih, List.countP_cons]
    · simp [syncLoop, hA, ih, List.countP_cons]

theorem syncLoop_attempts (existing : List ClockifyTimeEntry)
    (create : CreateTimeEntryRequest → Except String ClockifyTimeEntry)
    (meetings : List MeetingSession) :
    (createdRequests (syncLoop false existing create meetings).calls).length
      = meetings.countP fun m => !(isAlreadySynced (meetingIdentifier m) existing) := by
  induction meetings with
  | nil => rfl
  | cons m rest ih =>
    by_cases hA : isAlreadySynced (meetingIdentifier m) existing = true
    · simp [syncLoop, hA, ih, List.countP_cons]
    · simp only [createdRequests] at ih
      rcases hc : create (syncRequest m) with entry | err
      · simp [syncLoop, hA, hc, List.countP_cons, createdRequests, ih]
      · simp [syncLoop, hA, hc, List.countP_cons, createdRequests, ih]

theorem syncLoop_covers (existing : List ClockifyTimeEntry)
    (create : CreateTimeEntryRequest → Except String ClockifyTimeEntry)
    (hok : ∀ req, ∃ entry, create req = Except.ok entry)
    (meetings : List MeetingSession) :
    ∀ m ∈ meetings, isAlreadySynced (meetingIdentifier m)
      (existing ++ entriesOfCreates (syncLoop false existing create meetings).calls)
        = true := by
  induction meetings with
  | nil => intro m hm; simp at hm
  | cons m0 rest ih =>
    intro m hm
    by_cases hA : isAlreadySynced (meetingIdentifier m0) existing = true
    · have hcalls : (syncLoop false existing create (m0 :: rest)).calls
          = (syncLoop false existing create rest).calls := by
        simp [syncLoop, hA]
      rw [hcalls]
      rcases List.mem_cons.mp hm with rfl | hmem
      · exact isAlreadySynced_mono (List.subset_append_left _ _) hA
      · exact ih m hmem
    · obtain ⟨entry, hentry⟩ := hok (syncRequest m0)
      have hcalls : (syncLoop false existing create (m0 :: rest)).calls
          = ApiCall.createEntry (syncRequest m0)
            :: (syncLoop false existing create rest).calls := by
        simp [syncLoop, hA, hentry]
      rw [hcalls]
      rcases List.mem_cons.mp hm with rfl | hmem
      · refine isAlreadySynced_of_mem (e := { id := "", description := syncDescription m }) ?_ ?_
        · refine List.mem_append.mpr (Or.inr ?_)
          simp [entriesOfCreates, createdRequests, syncRequest]
        · exact tag_infix_syncDescription m
      · refine isAlreadySynced_mono ?_ (ih m hmem)
        intro x hx
        rcases List.mem_append.mp hx with h1 | h1
        · exact List.mem_append.mpr (Or.inl h1)
        · refine List.mem_append.mpr (Or.inr ?_)
          simp only [entriesOfCreates, createdRequests, List.filterMap_cons] at h1 ⊢
          simp at h1 ⊢
          tauto

theorem processSyncJob_ok (dryRun : Bool) (meetings : List MeetingSession)
    (existing : List ClockifyTimeEntry)
    (create : CreateTimeEntryRequest → Except String ClockifyTimeEntry)
    (h : meetings.length ≠ 0) :
    processSyncJob dryRun (Except.ok meetings) (Except.ok existing) create
      = Except.ok
        ({ status := "success", message := "Sync completed",
           stats := { meetings_found := meetings.length,
                      synced := (syncLoop dryRun existing create meetings).syncedCount,
                      skipped := (syncLoop dryRun existing create meetings).skippedCount,
                      failed := (syncLoop dryRun existing create meetings).failedCount,
                      total_in_clockify := some
                        ((existing.filter fun entry =>
                            jsIncludes entry.description "[Meet:").length
                          + (syncLoop dryRun existing create meetings).syncedCount) },
           dry_run := some dryRun },
         ApiCall.fetchMeetings :: ApiCall.fetchExisting
           :: (syncLoop dryRun existing create meetings).calls) := by
  simp [processSyncJob, h]

/-- C9: for every completed pass the returned counters satisfy
`synced + skipped + failed = meetings_found = n` where `n` is the number of
fetched candidate meetings — each loop iteration increments exactly one of
the three counters in every branch. -/
theorem c9_counter_conservation (dryRun : Bool) (meetings : List MeetingSession)
    (existing : List ClockifyTimeEntry)
    (create : CreateTimeEntryRequest → Except String ClockifyTimeEntry) :
    ∃ res calls,
      processSyncJob dryRun (Except.ok meetings) (Except.ok existing) create
        = Except.ok (res, calls)
      ∧ res.stats.meetings_found = meetings.length
      ∧ res.stats.synced + res.stats.skipped + res.stats.failed
          = res.stats.meetings_found := by
  by_cases h : meetings.length = 0
  · refine ⟨zeroSyncResult, [ApiCall.fetchMeetings], ?_, ?_, rfl⟩
    · simp [processSyncJob, h]
    · simpa [zeroSyncResult] using h.symm
  · refine ⟨_, _, processSyncJob_ok dryRun meetings existing create h, rfl, ?_⟩
    exact syncLoop_counters dryRun existing create meetings

/-- C6: when the meeting fetch yields an empty list the pass returns the zero
outcome `{meetings_found := 0, synced := 0, skipped := 0, failed := 0}`
immediately — its call trace is the meeting fetch alone, so the
existing-entries fetch (even an erroring one is never consulted) and entry
creation are not invoked. -/
theorem c6_zero_candidates_short_circuit (dryRun : Bool)
    (fetchExisting : Except String (List ClockifyTimeEntry))
    (create : CreateTimeEntryRequest → Except String ClockifyTimeEntry) :
    processSyncJob dryRun (Except.ok []) fetchExisting create
        = Except.ok (zeroSyncResult, [ApiCall.fetchMeetings])
    ∧ zeroSyncResult.stats
        = { meetings_found := 0, synced := 0, skipped := 0, failed := 0 }
    ∧ ApiCall.fetchExisting ∉ [ApiCall.fetchMeetings]
    ∧ createdRequests [ApiCall.fetchMeetings] = [] := by
  refine ⟨rfl, rfl, ?_, rfl⟩
  simp

/-- C7: a dry-run pass performs no creation call at all — its trace contains no
`createEntry` — while the synced counter counts exactly the non-duplicate
meetings, and nothing fails. -/
theorem c7_dry_run_no_write (meetings : List MeetingSession)
    (existing : List ClockifyTimeEntry)
    (create : CreateTimeEntryRequest → Except String ClockifyTimeEntry) :
    ∃ res calls,
      processSyncJob true (Except.ok meetings) (Except.ok existing) create
        = Except.ok (res, calls)
      ∧ createdRequests calls = []
      ∧ res.stats.synced
          = meetings.countP (fun m => !(isAlreadySynced (meetingIdentifier m) existing))
      ∧ res.stats.failed = 0 := by
  by_cases h : meetings.length = 0
  · have hm : meetings = [] := List.length_eq_zero.mp h
    subst hm
    exact ⟨zeroSyncResult, [ApiCall.fetchMeetings], rfl, rfl, rfl, rfl⟩
  · refine ⟨_, _, processSyncJob_ok true meetings existing create h, ?_, ?_, ?_⟩
    · rw [syncLoop_dry existing create meetings]
      rfl
    · rw [syncLoop_dry existing create meetings]
    · rw [syncLoop_dry existing create meetings]

/-- C1: idempotence of the reconciliation pass. If every creation of the first
(non-dry) run succeeds and the second run's existing entries include the first
run's created entries, the second run reports `synced = 0` and
`skipped = meetings_found`, and performs zero creation calls — every created
description embeds the very fingerprint tag the duplicate check searches for. -/
theorem c1_reconciliation_idempotent (meetings : List MeetingSession)
    (existing : List ClockifyTimeEntry)
    (create createSecond : CreateTimeEntryRequest → Except String ClockifyTimeEntry)
    (hok : ∀ req, ∃ entry, create req = Except.ok entry) :
    ∃ res1 calls1 res2 calls2,
      processSyncJob false (Except.ok meetings) (Except.ok existing) create
          = Except.ok (res1, calls1)
      ∧ processSyncJob false (Except.ok meetings)
            (Except.ok (existing ++ entriesOfCreates calls1)) createSecond
          = Except.ok (res2, calls2)
      ∧ res2.stats.synced = 0
      ∧ res2.stats.skipped = res2.stats.meetings_found
      ∧ res2.stats.meetings_found = meetings.length
      ∧ createdRequests calls2 = [] := by
  by_cases h : meetings.length = 0
  · have hm : meetings = [] := List.length_eq_zero.mp h
    subst hm
    exact ⟨zeroSyncResult, [ApiCall.fetchMeetings], zeroSyncResult, [ApiCall.fetchMeetings],
      rfl, rfl, rfl, rfl, rfl, rfl⟩
  · have hall : ∀ m ∈ meetings, isAlreadySynced (meetingIdentifier m)
        (existing ++ entriesOfCreates
          (ApiCall.fetchMeetings :: ApiCall.fetchExisting
            :: (syncLoop false existing create meetings).calls)) = true :=
      syncLoop_covers existing create hok meetings
    have hloop2 := syncLoop_all_skipped false
      (existing ++ entriesOfCreates
        (ApiCall.fetchMeetings :: ApiCall.fetchExisting
          :: (syncLoop false existing create meetings).calls))
      createSecond meetings hall
    refine ⟨_, _, _, _, processSyncJob_ok false meetings existing create h,
      processSyncJob_ok false meetings _ createSecond h, ?_, ?_, ?_, ?_⟩
    · rw [hloop2]
    · rw [hloop2]
    · rfl
    · rw [hloop2]
      rfl

/-- C8: per-meeting failure isolation and fatal-fetch propagation. With both
fetches successful the pass returns a `success`-status outcome whose counters
cover every candidate regardless of what the creation collaborator does, and
(in a non-dry run) it attempts a creation call for every non-duplicate
candidate; the pass propagates an error exactly when the meeting fetch fails,
or when the existing-entries fetch fails with a non-empty candidate list. -/
theorem c8_failure_isolation (dryRun : Bool) (meetings : List MeetingSession)
    (existing : List ClockifyTimeEntry)
    (create : CreateTimeEntryRequest → Except String ClockifyTimeEntry)
    (fetchExisting : Except String (List ClockifyTimeEntry)) (e : String)
    (hne : meetings ≠ []) :
    (∃ res calls,
        processSyncJob dryRun (Except.ok meetings) (Except.ok existing) create
          = Except.ok (res, calls)
        ∧ res.status = "success"
        ∧ res.stats.meetings_found = meetings.length
        ∧ res.stats.synced + res.stats.skipped + res.stats.failed = meetings.length
        ∧ (dryRun = false →
            (createdRequests calls).length
              = meetings.countP fun m => !(isAlreadySynced (meetingIdentifier m) existing)))
    ∧ processSyncJob dryRun (Except.error e) fetchExisting create = Except.error e
    ∧ processSyncJob dryRun (Except.ok meetings) (Except.error e) create = Except.error e := by
  have h : meetings.length ≠ 0 := by simpa [List.length_eq_zero] using hne
  refine ⟨⟨_, _, processSyncJob_ok dryRun meetings existing create h, rfl, rfl, ?_, ?_⟩,
    rfl, ?_⟩
  · exact syncLoop_counters dryRun existing create meetings
  · intro hd
    subst hd
    exact syncLoop_attempts existing create meetings
  · simp [processSyncJob, h]

theorem c4_aggregation_postcondition_witness :
    (∃ r, aggregateUserSessions [sessionTenToTwenty, sessionTwentyFiveToForty] = some r
      ∧ r.totalDuration = Int.fdiv (r.latestEnd - r.earliestStart) 1000
      ∧ 0 ≤ r.totalDuration)
    ∧ aggregateUserSessions [sessionTenToTwenty, sessionTwentyFiveToForty]
        = some { earliestStart := 36000000, latestEnd := 38400000, totalDuration := 2400 } := by
  constructor
  · obtain ⟨r, hsome, _, _, _, _, hdur, hnn⟩ :=
      c4_aggregation_postcondition [sessionTenToTwenty, sessionTwentyFiveToForty] (by decide)
    exact ⟨r, hsome, hdur, hnn (by decide)⟩
  · decide

theorem c5_empty_aggregation_drop_witness :
    aggregateUserSessions [sessionStillOpen] = none :=
  c5_empty_aggregation_drop [sessionStillOpen] (by decide)

theorem c1_reconciliation_idempotent_witness :
    ∃ res1 calls1 res2 calls2,
      processSyncJob false (Except.ok [meetingAlpha]) (Except.ok []) alwaysOkCreate
          = Except.ok (res1, calls1)
      ∧ processSyncJob false (Except.ok [meetingAlpha])
            (Except.ok ([] ++ entriesOfCreates calls1)) alwaysOkCreate
          = Except.ok (res2, calls2)
      ∧ res2.stats.synced = 0
      ∧ res2.stats.skipped = res2.stats.meetings_found
      ∧ res2.stats.meetings_found = [meetingAlpha].length
      ∧ createdRequests calls2 = [] :=
  c1_reconciliation_idempotent [meetingAlpha] [] alwaysOkCreate alwaysOkCreate
    (fun _ => ⟨{ id := "n", description := "d" }, rfl⟩)

theorem c8_failure_isolation_witness :
    processSyncJob false (Except.ok meetingsABC) (Except.error "boom") createFailingOnE2
      = Except.error "boom"
    ∧ (∃ res calls,
        processSyncJob false (Except.ok meetingsABC) (Except.ok []) createFailingOnE2
          = Except.ok (res, calls)
        ∧ res.status = "success"
        ∧ res.stats.synced + res.stats.skipped + res.stats.failed = 3)
    ∧ (processSyncJob false (Except.ok meetingsABC) (Except.ok [])
          createFailingOnE2).toOption.map
        (fun p => (p.1.stats.synced, p.1.stats.skipped, p.1.stats.failed))
      = some (2, 0, 1) := by
  obtain ⟨⟨res, calls, hh1, hh2, hh3, hh4, hh5⟩, herr1, herr2⟩ :=
    c8_failure_isolation false meetingsABC [] createFailingOnE2
      (Except.ok []) "boom" (by decide)
  exact ⟨herr2, ⟨res, calls, hh1, hh2, hh4⟩, by decide⟩

theorem c6_zero_candidates_short_circuit_witness :
    processSyncJob false (Except.ok []) (Except.error "x") alwaysOkCreate
        = Except.ok (zeroSyncResult, [ApiCall.fetchMeetings])
    ∧ zeroSyncResult.stats
        = { meetings_found := 0, synced := 0, skipped := 0, failed := 0 }
    ∧ ApiCall.fetchExisting ∉ [ApiCall.fetchMeetings]
    ∧ createdRequests [ApiCall.fetchMeetings] = [] :=
  c6_zero_candidates_short_circuit false (Except.error "x") alwaysOkCreate

theorem c7_dry_run_no_write_witness :
    (∃ res calls,
      processSyncJob true (Except.ok meetingsABC) (Except.ok []) alwaysOkCreate
        = Except.ok (res, calls)
      ∧ createdRequests calls = []
      ∧ res.stats.synced
          = meetingsABC.countP (fun m => !(isAlreadySynced (meetingIdentifier m) []))
      ∧ res.stats.failed = 0)
    ∧ (processSyncJob true (Except.ok meetingsABC) (Except.ok [])
          alwaysOkCreate).toOption.map (fun p => p.1.stats.synced) = some 3 :=
  ⟨c7_dry_run_no_write meetingsABC [] alwaysOkCreate, by decide⟩

theorem c9_counter_conservation_witness :
    ∃ res calls,
      processSyncJob false (Except.ok meetingsABC) (Except.ok []) createFailingOnE2
        = Except.ok (res, calls)
      ∧ res.stats.meetings_found = meetingsABC.length
      ∧ res.stats.synced + res.stats.skipped + res.stats.failed
          = res.stats.meetings_found :=
  c9_counter_conservation false meetingsABC [] createFailingOnE2

theorem c10_createTimeEntry_project_attachment_witness :
    (createTimeEntrySubmitted (some "proj1") (syncRequest meetingAlpha)).projectId
        = some "proj1"
    ∧ createTimeEntrySubmitted (some "proj1") (syncRequest meetingAlpha)
        = { syncRequest meetingAlpha with projectId := some "proj1" }
    ∧ createTimeEntrySubmitted none (syncRequest meetingAlpha) = syncRequest meetingAlpha :=
  c10_createTimeEntry_project_attachment "proj1" (syncRequest meetingAlpha)
